import Mathlib

/-!
# `osm support bug-report`: target resolution in `bugReportCmd.run`

A shallow embedding of `cmd/cli/support_bugreport.go`.  The command either
parses the `--app-pods` / `--app-deployments` strings (explicit mode) or asks
the cluster for the monitored namespaces and their pods (`--all`), builds a
`bugreport.Config` and returns whatever `Config.Run` returns.

Effects are made explicit:
* every `fmt.Fprintf(cmd.stderr, ...)` appends one message to a list;
* every call on `cmd.kubeClient` appends one entry to a call log;
* a Kubernetes `List` call returns a Go pair `(*XList, error)`; the pointer is
  an `Option` and ranging over `.Items` of a nil pointer stops the run. The
  client of `run` is the typed clientset built by `kubernetes.NewForConfig`
  (line 92), whose `List` methods allocate the list before the request: their
  list is never nil and is empty beside an error (`KubeClient.typed`);
* `k8s.NamespacedNameFrom`, `settings.Namespace()`, the label selector constant
  and `bugreport.Config.Run` are defined outside this file and are the fields
  of `Env`.
-/

namespace BugReport

/-! ## Data model -/

/-- The type `types.NamespacedName` of apimachinery. -/
structure NamespacedName where
  Namespace : String
  Name : String
deriving DecidableEq, Repr

/-- A failed identifier parse. -/
inductive ParseError where
  | MalformedIdentifier
deriving DecidableEq, Repr

/-- A namespace object; only `ObjectMeta.Name` is read. -/
structure Namespace where
  Name : String
deriving DecidableEq, Repr

/-- A pod object; only `pod.Namespace` and `pod.Name` are read. -/
structure Pod where
  Namespace : String
  Name : String
deriving DecidableEq, Repr

/-- The Go pair `(*XList, error)` returned by a typed client `List` call.
`list = none` is the nil pointer, `list = some items` a list object whose
`Items` are `items`; `err = none` is the nil error. -/
structure ListResult (α : Type) where
  list : Option (List α)
  err : Option String
deriving DecidableEq, Repr

/-- The two calls `run` makes on `kubernetes.Interface`:
`CoreV1().Namespaces().List` with a label selector and
`CoreV1().Pods(ns).List` with empty options. -/
structure KubeClient where
  NamespacesList : String → ListResult Namespace
  PodsList : String → ListResult Pod

/-- An `io.Writer` handle. -/
structure Writer where
  fd : Nat
deriving DecidableEq, Repr

/-- The struct `bugReportCmd`. -/
structure bugReportCmd where
  stdout : Writer
  stderr : Writer
  kubeClient : KubeClient
  all : Bool
  appNamespaces : List String
  appDeployments : List String
  appPods : List String
  outFile : String

/-- The fields of `bugreport.Config` that `run` fills in. -/
structure Config where
  Stdout : Writer
  Stderr : Writer
  KubeClient : KubeClient
  ControlPlaneNamepace : String
  AppNamespaces : List String
  AppDeployments : List NamespacedName
  AppPods : List NamespacedName
  OutFile : String

/-- A call made on the cluster client. -/
inductive ApiCall where
  | listNamespaces (labelSelector : String)
  | listPods (namespaceName : String)
deriving DecidableEq, Repr

/-- What `run` uses but does not define: the identifier parser
`k8s.NamespacedNameFrom`, `settings.Namespace()`, the constant
`constants.OSMKubeResourceMonitorAnnotation` and the collector
`bugreport.Config.Run` with result type `R`. -/
structure Env (R : Type) where
  NamespacedNameFrom : String → Except ParseError NamespacedName
  settingsNamespace : String
  OSMKubeResourceMonitorAnnotation : String
  Run : Config → R

/-- The mutable state of `run` before the collector is built: the field
`cmd.appNamespaces`, the locals `appPods` and `appDeployments`, the messages
written to `cmd.stderr` and the client calls made, oldest first. -/
structure RunState where
  appNamespaces : List String
  appPods : List NamespacedName
  appDeployments : List NamespacedName
  stderr : List String
  apiCalls : List ApiCall
deriving DecidableEq, Repr

/-- What one execution of `run` did: the messages it wrote to `cmd.stderr`,
the client calls it made, the configurations on which it invoked the
collector, and the value it returned (`none` when it stopped on a nil
dereference and returned nothing). -/
structure RunOutcome (R : Type) where
  stderr : List String
  apiCalls : List ApiCall
  collectorCalls : List Config
  returned : Option R

/-! ## The identifier parser -/

/-- The segments of a character list between occurrences of `sep`. -/
def segments (sep : Char) : List Char → List (List Char)
  | [] => [[]]
  | c :: cs =>
    if c = sep then [] :: segments sep cs
    else
      match segments sep cs with
      | [] => [[c]]
      | seg :: rest => (c :: seg) :: rest

/-- Modelled from the spec: `k8s.NamespacedNameFrom` is defined in `pkg/k8s`,
which is not part of the sources at hand. Section 4.1: the input must contain
exactly one separator splitting it into non-empty namespace and name segments;
any other shape fails with `MalformedIdentifier`. -/
def NamespacedNameFrom (s : String) : Except ParseError NamespacedName :=
  match segments '/' s.data with
  | [ns, name] =>
    if ns ≠ [] ∧ name ≠ [] then .ok ⟨String.mk ns, String.mk name⟩
    else .error .MalformedIdentifier
  | _ => .error .MalformedIdentifier

/-- The textual form `namespace/name` of an identifier. -/
def NamespacedName.format (r : NamespacedName) : String :=
  r.Namespace ++ "/" ++ r.Name

/-! ## `run` -/

/-- The message of `Fprintf(cmd.stderr, "Pod name %s is not namespaced, skipping it", pod)`. -/
def podWarning (pod : String) : String :=
  "Pod name " ++ pod ++ " is not namespaced, skipping it"

/-- The message of
`Fprintf(cmd.stderr, "Deployment name %s is not namespaced, skipping it", deployment)`. -/
def deploymentWarning (deployment : String) : String :=
  "Deployment name " ++ deployment ++ " is not namespaced, skipping it"

/-- The message of `Fprintf(cmd.stderr, "Unable to list mesh namespaces")`. -/
def namespacesWarning : String :=
  "Unable to list mesh namespaces"

/-- The message of
`Fprintf(cmd.stderr, "Unable to get pods from namespace %s", namespaceName)`. -/
def podsWarning (namespaceName : String) : String :=
  "Unable to get pods from namespace " ++ namespaceName

/-- Body of `for _, pod := range cmd.appPods` (lines 139-146). -/
def podStep {R : Type} (env : Env R) (st : RunState) (pod : String) : RunState :=
  match env.NamespacedNameFrom pod with
  | .error _ => { st with stderr := st.stderr ++ [podWarning pod] }
  | .ok p => { st with appPods := st.appPods ++ [p] }

/-- Body of `for _, deployment := range cmd.appDeployments` (lines 148-155). -/
def deploymentStep {R : Type} (env : Env R) (st : RunState) (deployment : String) : RunState :=
  match env.NamespacedNameFrom deployment with
  | .error _ => { st with stderr := st.stderr ++ [deploymentWarning deployment] }
  | .ok d => { st with appDeployments := st.appDeployments ++ [d] }

/-- Body of `for _, pod := range pods.Items` (lines 130-136). -/
def podItemStep (st : RunState) (pod : Pod) : RunState :=
  { st with appPods := st.appPods ++ [{ Namespace := pod.Namespace, Name := pod.Name }] }

/-- Body of `for _, namespace := range namespaces.Items` (lines 123-137).
`Except.error st` is the state in which `pods.Items` dereferenced nil. -/
def namespaceStep (kubeClient : KubeClient) (st : RunState) (nsObj : Namespace) :
    Except RunState RunState :=
  let namespaceName := nsObj.Name
  let st := { st with appNamespaces := st.appNamespaces ++ [namespaceName] }
  let pods := kubeClient.PodsList namespaceName
  let st := { st with apiCalls := st.apiCalls ++ [ApiCall.listPods namespaceName] }
  let st :=
    if pods.err.isSome then
      { st with stderr := st.stderr ++ [podsWarning namespaceName] }
    else st
  match pods.list with
  | none => .error st
  | some items => .ok (items.foldl podItemStep st)

/-- The loop `for _, namespace := range namespaces.Items`; it ends at the
first nil dereference. -/
def namespacesLoop (kubeClient : KubeClient) : List Namespace → RunState → Except RunState RunState
  | [], st => .ok st
  | nsObj :: rest, st =>
    match namespaceStep kubeClient st nsObj with
    | .error st' => .error st'
    | .ok st' => namespacesLoop kubeClient rest st'

/-- Lines 112-156 of `run`: the `if cmd.all { ... } else { ... }` statement. -/
def resolve {R : Type} (env : Env R) (cmd : bugReportCmd) : Except RunState RunState :=
  let st : RunState :=
    { appNamespaces := cmd.appNamespaces, appPods := [], appDeployments := [],
      stderr := [], apiCalls := [] }
  if cmd.all then
    let st := { st with appNamespaces := [] }
    let namespaces := cmd.kubeClient.NamespacesList env.OSMKubeResourceMonitorAnnotation
    let st :=
      { st with
        apiCalls := st.apiCalls ++ [ApiCall.listNamespaces env.OSMKubeResourceMonitorAnnotation] }
    let st :=
      if namespaces.err.isSome then
        { st with stderr := st.stderr ++ [namespacesWarning] }
      else st
    match namespaces.list with
    | none => .error st
    | some items => namespacesLoop cmd.kubeClient items st
  else
    let st := cmd.appPods.foldl (podStep env) st
    let st := cmd.appDeployments.foldl (deploymentStep env) st
    .ok st

/-- The method `(cmd *bugReportCmd) run() error`. -/
def bugReportCmd.run {R : Type} (env : Env R) (cmd : bugReportCmd) : RunOutcome R :=
  match resolve env cmd with
  | .error st =>
    { stderr := st.stderr, apiCalls := st.apiCalls, collectorCalls := [], returned := none }
  | .ok st =>
    let bugReportCfg : Config :=
      { Stdout := cmd.stdout
        Stderr := cmd.stderr
        KubeClient := cmd.kubeClient
        ControlPlaneNamepace := env.settingsNamespace
        AppNamespaces := st.appNamespaces
        AppDeployments := st.appDeployments
        AppPods := st.appPods
        OutFile := cmd.outFile }
    { stderr := st.stderr, apiCalls := st.apiCalls, collectorCalls := [bugReportCfg],
      returned := some (env.Run bugReportCfg) }

/-! ## Vocabulary of the statements -/

/-- The identifiers of the entries of `xs` that the parser accepts, in input
order (the filter-map of the parser over `xs`). -/
def parsedRefs {R : Type} (env : Env R) (xs : List String) : List NamespacedName :=
  xs.filterMap fun s => (env.NamespacedNameFrom s).toOption

/-- The entries of `xs` that the parser rejects, in input order. -/
def malformedEntries {R : Type} (env : Env R) (xs : List String) : List String :=
  xs.filter fun s => (env.NamespacedNameFrom s).toOption.isNone

/-- The `(namespace, name)` pair `run` builds from a listed pod. -/
def Pod.ref (pod : Pod) : NamespacedName :=
  { Namespace := pod.Namespace, Name := pod.Name }

/-- The pods listed for a namespace, as identifiers in listing order; nothing
when the listing returned a nil list. -/
def listedPods (kubeClient : KubeClient) (namespaceName : String) : List NamespacedName :=
  ((kubeClient.PodsList namespaceName).list.getD []).map Pod.ref

/-- The warnings the namespace loop writes: one per namespace whose pod listing
returned an error. -/
def podsWarnings (kubeClient : KubeClient) (nss : List Namespace) : List String :=
  (nss.filter fun nsObj => (kubeClient.PodsList nsObj.Name).err.isSome).map
    fun nsObj => podsWarning nsObj.Name

/-- The shape of a result of the typed clientset: the list object is allocated
before the request is sent, so it is never nil, and it is still empty when the
call returns an error. -/
def ListResult.typed {α : Type} (r : ListResult α) : Bool :=
  match r.list, r.err with
  | none, _ => false
  | some items, some _ => items.isEmpty
  | some _, none => true

/-- No `List` call of the client returns a nil list. -/
def KubeClient.listsNonNil (kubeClient : KubeClient) : Prop :=
  (∀ labelSelector, (kubeClient.NamespacesList labelSelector).list.isSome = true) ∧
    ∀ namespaceName, (kubeClient.PodsList namespaceName).list.isSome = true

/-- The clients `run` is given: `kubernetes.NewForConfig` (line 92) returns the
typed clientset, every `List` result of which has the shape `ListResult.typed`. -/
def KubeClient.typed (kubeClient : KubeClient) : Prop :=
  (∀ labelSelector, (kubeClient.NamespacesList labelSelector).typed = true) ∧
    ∀ namespaceName, (kubeClient.PodsList namespaceName).typed = true

/-- The target lists of a collector configuration: namespaces, deployments, pods. -/
def Config.targets (cfg : Config) : List String × List NamespacedName × List NamespacedName :=
  (cfg.AppNamespaces, cfg.AppDeployments, cfg.AppPods)

/-! ## Concrete environments and invocations -/

/-- An environment whose parser is the one of section 4.1 and whose collector
returns the number of targets it was given. -/
def sampleEnv : Env Nat :=
  { NamespacedNameFrom := NamespacedNameFrom
    settingsNamespace := "osm-system"
    OSMKubeResourceMonitorAnnotation := "openservicemesh.io/monitored-by"
    Run := fun cfg => cfg.AppNamespaces.length + cfg.AppDeployments.length + cfg.AppPods.length }

/-- A cluster with no monitored namespace. -/
def emptyCluster : KubeClient :=
  { NamespacesList := fun _ => { list := some [], err := none }
    PodsList := fun _ => { list := some [], err := none } }

/-- The invocation of the help text:
`--app-namespaces bookbuyer,bookstore --app-deployments bookbuyer/bookbuyer,bookstore/bookstore-v1
--app-pods bookthief/bookthief-7bb7f9b98c-qplq4`, with one malformed pod added. -/
def sampleCmd : bugReportCmd :=
  { stdout := ⟨1⟩, stderr := ⟨2⟩, kubeClient := emptyCluster, all := false
    appNamespaces := ["bookbuyer", "bookstore"]
    appDeployments := ["bookbuyer/bookbuyer", "bookstore/bookstore-v1"]
    appPods := ["bookthief/bookthief-7bb7f9b98c-qplq4", "bookthief"]
    outFile := "out.tar.gz" }

/-- The same pod listed twice. -/
def duplicateCmd : bugReportCmd :=
  { stdout := ⟨1⟩, stderr := ⟨2⟩, kubeClient := emptyCluster, all := false
    appNamespaces := [], appDeployments := [], appPods := ["a/b", "a/b"], outFile := "" }

/-- A cluster with two monitored namespaces holding two pods and one pod. -/
def meshCluster : KubeClient :=
  { NamespacesList := fun labelSelector =>
      if labelSelector = "openservicemesh.io/monitored-by" then
        { list := some [⟨"bookbuyer"⟩, ⟨"bookstore"⟩], err := none }
      else { list := some [], err := none }
    PodsList := fun namespaceName =>
      if namespaceName = "bookbuyer" then
        { list := some [⟨"bookbuyer", "bookbuyer-1"⟩, ⟨"bookbuyer", "bookbuyer-2"⟩], err := none }
      else if namespaceName = "bookstore" then
        { list := some [⟨"bookstore", "bookstore-v1-1"⟩], err := none }
      else { list := some [], err := none } }

/-- The pods of `meshCluster` by namespace. -/
def meshPods (namespaceName : String) : List Pod :=
  (meshCluster.PodsList namespaceName).list.getD []

/-- A cluster that cannot be reached: every listing of the typed client fails,
returning its empty list and an error. -/
def unreachableCluster : KubeClient :=
  { NamespacesList := fun _ => { list := some [], err := some "connection refused" }
    PodsList := fun _ => { list := some [], err := some "connection refused" } }

/-- A cluster with monitored namespaces `a`, `b`, `c`, each holding one pod,
where listing the pods of `b` fails: the typed client returns its empty list
and an error. -/
def oneFailureCluster : KubeClient :=
  { NamespacesList := fun _ => { list := some [⟨"a"⟩, ⟨"b"⟩, ⟨"c"⟩], err := none }
    PodsList := fun namespaceName =>
      if namespaceName = "b" then { list := some [], err := some "forbidden" }
      else { list := some [⟨namespaceName, "pod-0"⟩], err := none } }

/-- A cluster with the single monitored namespace `a` whose pod listing fails:
the typed client returns its empty list and an error. -/
def soleFailureCluster : KubeClient :=
  { NamespacesList := fun _ => { list := some [⟨"a"⟩], err := none }
    PodsList := fun _ => { list := some [], err := some "timeout" } }

/-- An `--all` invocation against `kubeClient` that also carries explicit inputs. -/
def allCmd (kubeClient : KubeClient) (appNamespaces appDeployments appPods : List String) :
    bugReportCmd :=
  { stdout := ⟨1⟩, stderr := ⟨2⟩, kubeClient := kubeClient, all := true
    appNamespaces := appNamespaces, appDeployments := appDeployments, appPods := appPods
    outFile := "report.zip" }

/-! ## Explicit mode -/

theorem foldl_podStep {R : Type} (env : Env R) (pods : List String) (st : RunState) :
    pods.foldl (podStep env) st =
      { st with
        appPods := st.appPods ++ parsedRefs env pods
        stderr := st.stderr ++ (malformedEntries env pods).map podWarning } := by
  induction pods generalizing st with
  | nil => simp [parsedRefs, malformedEntries]
  | cons pod rest ih =>
    rw [List.foldl_cons, ih]
    cases h : env.NamespacedNameFrom pod <;>
      simp [podStep, parsedRefs, malformedEntries, h, Except.toOption]

theorem foldl_deploymentStep {R : Type} (env : Env R) (deployments : List String)
    (st : RunState) :
    deployments.foldl (deploymentStep env) st =
      { st with
        appDeployments := st.appDeployments ++ parsedRefs env deployments
        stderr := st.stderr ++ (malformedEntries env deployments).map deploymentWarning } := by
  induction deployments generalizing st with
  | nil => simp [parsedRefs, malformedEntries]
  | cons deployment rest ih =>
    rw [List.foldl_cons, ih]
    cases h : env.NamespacedNameFrom deployment <;>
      simp [deploymentStep, parsedRefs, malformedEntries, h, Except.toOption]

/-- Closed form of `resolve` in explicit mode. -/
theorem resolve_explicit {R : Type} (env : Env R) (cmd : bugReportCmd) (h : cmd.all = false) :
    resolve env cmd = .ok
      { appNamespaces := cmd.appNamespaces
        appPods := parsedRefs env cmd.appPods
        appDeployments := parsedRefs env cmd.appDeployments
        stderr := (malformedEntries env cmd.appPods).map podWarning ++
          (malformedEntries env cmd.appDeployments).map deploymentWarning
        apiCalls := [] } := by
  simp [resolve, h, foldl_podStep, foldl_deploymentStep]

theorem length_parsedRefs_add_malformed {R : Type} (env : Env R) (xs : List String) :
    (parsedRefs env xs).length + (malformedEntries env xs).length = xs.length := by
  induction xs with
  | nil => simp [parsedRefs, malformedEntries]
  | cons x rest ih =>
    cases h : env.NamespacedNameFrom x <;>
      simp [parsedRefs, malformedEntries, h, Except.toOption, List.filterMap_cons,
        List.filter_cons] at ih ⊢ <;> omega

theorem count_parsedRefs {R : Type} (env : Env R) (xs : List String) (r : NamespacedName) :
    (parsedRefs env xs).count r =
      xs.countP fun s => decide ((env.NamespacedNameFrom s).toOption = some r) := by
  induction xs with
  | nil => simp [parsedRefs]
  | cons x rest ih =>
    cases h : env.NamespacedNameFrom x with
    | error e =>
      simp [parsedRefs, h, Except.toOption, List.filterMap_cons, List.countP_cons] at ih ⊢
      exact ih
    | ok v =>
      simp [parsedRefs, h, Except.toOption, List.filterMap_cons, List.countP_cons,
        List.count_cons] at ih ⊢
      rw [ih]

/-! ## All mode -/

theorem foldl_podItemStep (items : List Pod) (st : RunState) :
    items.foldl podItemStep st = { st with appPods := st.appPods ++ items.map Pod.ref } := by
  induction items generalizing st with
  | nil => simp
  | cons pod rest ih => rw [List.foldl_cons, ih]; simp [podItemStep, Pod.ref]

/-- One iteration of the namespace loop when the pod listing returned a list. -/
theorem namespaceStep_of_list (kubeClient : KubeClient) (st : RunState) (nsObj : Namespace)
    (items : List Pod) (h : (kubeClient.PodsList nsObj.Name).list = some items) :
    namespaceStep kubeClient st nsObj = .ok
      { appNamespaces := st.appNamespaces ++ [nsObj.Name]
        appPods := st.appPods ++ items.map Pod.ref
        appDeployments := st.appDeployments
        stderr := st.stderr ++
          (if (kubeClient.PodsList nsObj.Name).err.isSome then [podsWarning nsObj.Name] else [])
        apiCalls := st.apiCalls ++ [ApiCall.listPods nsObj.Name] } := by
  unfold namespaceStep
  simp only [h, foldl_podItemStep]
  split <;> simp

/-- One iteration of the namespace loop when the pod listing returned nil. -/
theorem namespaceStep_of_nil (kubeClient : KubeClient) (st : RunState) (nsObj : Namespace)
    (h : (kubeClient.PodsList nsObj.Name).list = none) :
    ∃ st', namespaceStep kubeClient st nsObj = .error st' := by
  unfold namespaceStep
  simp only [h]
  exact ⟨_, rfl⟩

/-- Closed form of the namespace loop when no pod listing returned nil. -/
theorem namespacesLoop_ok (kubeClient : KubeClient) (nss : List Namespace) (st : RunState)
    (h : ∀ nsObj ∈ nss, (kubeClient.PodsList nsObj.Name).list ≠ none) :
    namespacesLoop kubeClient nss st = .ok
      { appNamespaces := st.appNamespaces ++ nss.map Namespace.Name
        appPods := st.appPods ++ nss.flatMap fun nsObj => listedPods kubeClient nsObj.Name
        appDeployments := st.appDeployments
        stderr := st.stderr ++ podsWarnings kubeClient nss
        apiCalls := st.apiCalls ++ nss.map fun nsObj => ApiCall.listPods nsObj.Name } := by
  induction nss generalizing st with
  | nil => simp [namespacesLoop, podsWarnings]
  | cons nsObj rest ih =>
    have hhead := h nsObj (List.mem_cons_self _ _)
    obtain ⟨items, hitems⟩ := Option.ne_none_iff_exists'.mp hhead
    have hrest : ∀ n ∈ rest, (kubeClient.PodsList n.Name).list ≠ none :=
      fun n hn => h n (List.mem_cons_of_mem _ hn)
    rw [namespacesLoop, namespaceStep_of_list kubeClient st nsObj items hitems]
    simp only [ih _ hrest]
    by_cases herr : (kubeClient.PodsList nsObj.Name).err.isSome <;>
      simp [podsWarnings, listedPods, hitems, herr, List.filter_cons]

/-- The namespace loop finishes exactly when no pod listing returned nil. -/
theorem namespacesLoop_isOk_iff (kubeClient : KubeClient) (nss : List Namespace) (st : RunState) :
    (∃ st', namespacesLoop kubeClient nss st = .ok st') ↔
      ∀ nsObj ∈ nss, (kubeClient.PodsList nsObj.Name).list ≠ none := by
  constructor
  · intro hok
    induction nss generalizing st with
    | nil => simp
    | cons nsObj rest ih =>
      obtain ⟨st', hst'⟩ := hok
      rw [namespacesLoop] at hst'
      cases hl : (kubeClient.PodsList nsObj.Name).list with
      | none =>
        obtain ⟨e, he⟩ := namespaceStep_of_nil kubeClient st nsObj hl
        simp [he] at hst'
      | some items =>
        rw [namespaceStep_of_list kubeClient st nsObj items hl] at hst'
        intro n hn
        rcases List.mem_cons.mp hn with rfl | hn
        · simp [hl]
        · exact ih _ ⟨st', hst'⟩ n hn
  · intro h
    exact ⟨_, namespacesLoop_ok kubeClient nss st h⟩

/-- Closed form of `resolve` in all mode when no listing returned nil. -/
theorem resolve_all {R : Type} (env : Env R) (cmd : bugReportCmd) (h : cmd.all = true)
    (nss : List Namespace)
    (hl : (cmd.kubeClient.NamespacesList env.OSMKubeResourceMonitorAnnotation).list = some nss)
    (hp : ∀ nsObj ∈ nss, (cmd.kubeClient.PodsList nsObj.Name).list ≠ none) :
    resolve env cmd = .ok
      { appNamespaces := nss.map Namespace.Name
        appPods := nss.flatMap fun nsObj => listedPods cmd.kubeClient nsObj.Name
        appDeployments := []
        stderr :=
          (if (cmd.kubeClient.NamespacesList env.OSMKubeResourceMonitorAnnotation).err.isSome
            then [namespacesWarning] else []) ++ podsWarnings cmd.kubeClient nss
        apiCalls := ApiCall.listNamespaces env.OSMKubeResourceMonitorAnnotation ::
          nss.map fun nsObj => ApiCall.listPods nsObj.Name } := by
  unfold resolve
  simp only [h, if_true, hl]
  rw [namespacesLoop_ok cmd.kubeClient nss _ hp]
  split <;> simp

/-- In all mode `resolve` reads the client and nothing else of the command. -/
theorem resolve_all_congr {R : Type} (env : Env R) (cmd₁ cmd₂ : bugReportCmd)
    (h₁ : cmd₁.all = true) (h₂ : cmd₂.all = true) (hk : cmd₁.kubeClient = cmd₂.kubeClient) :
    resolve env cmd₁ = resolve env cmd₂ := by
  unfold resolve
  simp only [h₁, h₂, hk, if_true]

/-- In all mode `resolve` finishes only if the namespace listing returned a
list and every pod listing of a returned namespace did. -/
theorem resolve_all_ok_inv {R : Type} (env : Env R) (cmd : bugReportCmd) (h : cmd.all = true)
    (st : RunState) (hst : resolve env cmd = .ok st) :
    ∃ nss, (cmd.kubeClient.NamespacesList env.OSMKubeResourceMonitorAnnotation).list = some nss ∧
      ∀ nsObj ∈ nss, (cmd.kubeClient.PodsList nsObj.Name).list ≠ none := by
  unfold resolve at hst
  simp only [h, if_true] at hst
  cases hl : (cmd.kubeClient.NamespacesList env.OSMKubeResourceMonitorAnnotation).list with
  | none => simp [hl] at hst
  | some nss =>
    simp only [hl] at hst
    exact ⟨nss, rfl, (namespacesLoop_isOk_iff _ _ _).mp ⟨st, hst⟩⟩

/-- Shape of `run` after a finished resolution: one collector call, its result returned. -/
theorem run_of_resolve_ok {R : Type} (env : Env R) (cmd : bugReportCmd) (st : RunState)
    (hst : resolve env cmd = .ok st) :
    cmd.run env =
      { stderr := st.stderr
        apiCalls := st.apiCalls
        collectorCalls :=
          [{ Stdout := cmd.stdout, Stderr := cmd.stderr, KubeClient := cmd.kubeClient
             ControlPlaneNamepace := env.settingsNamespace
             AppNamespaces := st.appNamespaces, AppDeployments := st.appDeployments
             AppPods := st.appPods, OutFile := cmd.outFile }]
        returned := some (env.Run
          { Stdout := cmd.stdout, Stderr := cmd.stderr, KubeClient := cmd.kubeClient
            ControlPlaneNamepace := env.settingsNamespace
            AppNamespaces := st.appNamespaces, AppDeployments := st.appDeployments
            AppPods := st.appPods, OutFile := cmd.outFile }) } := by
  simp [bugReportCmd.run, hst]

/-- Shape of `run` after a nil dereference: no collector call, nothing returned. -/
theorem run_of_resolve_error {R : Type} (env : Env R) (cmd : bugReportCmd) (st : RunState)
    (hst : resolve env cmd = .error st) :
    cmd.run env =
      { stderr := st.stderr, apiCalls := st.apiCalls, collectorCalls := [], returned := none } := by
  simp [bugReportCmd.run, hst]

/-! ## The claims about explicit mode -/

/-- C1: in explicit mode (`all = false`) the collector is handed, as pod list,
the filter-map of the identifier parser over `cmd.appPods` and, as deployment
list, the filter-map of the parser over `cmd.appDeployments`: the parsed
entries in input order, the malformed ones left out. -/
theorem explicit_lists_are_filterMap {R : Type} (env : Env R) (cmd : bugReportCmd)
    (h : cmd.all = false) :
    (cmd.run env).collectorCalls.map (fun cfg => (cfg.AppPods, cfg.AppDeployments)) =
      [(cmd.appPods.filterMap (fun s => (env.NamespacedNameFrom s).toOption),
        cmd.appDeployments.filterMap (fun s => (env.NamespacedNameFrom s).toOption))] := by
  rw [run_of_resolve_ok env cmd _ (resolve_explicit env cmd h)]
  rfl

theorem explicit_lists_are_filterMap_witness :
    sampleCmd.all = false ∧
      (sampleCmd.run sampleEnv).collectorCalls.map (fun cfg => (cfg.AppPods, cfg.AppDeployments)) =
        [(sampleCmd.appPods.filterMap (fun s => (sampleEnv.NamespacedNameFrom s).toOption),
          sampleCmd.appDeployments.filterMap
            (fun s => (sampleEnv.NamespacedNameFrom s).toOption))] :=
  ⟨rfl, explicit_lists_are_filterMap sampleEnv sampleCmd rfl⟩

/-- C2: in explicit mode every input entry is accounted for once. The messages
on `cmd.stderr` are, for each pod entry the parser rejects, in input order, the
text `Pod name <entry> is not namespaced, skipping it`, followed by, for each
deployment entry the parser rejects, in input order, the text
`Deployment name <entry> is not namespaced, skipping it`; so there are as many
messages as malformed entries. The lists handed to the collector are the parsed
entries; resolved identifiers plus messages number as many as the inputs; and
`run` reaches the collector and returns, so no malformed entry stops it. -/
theorem explicit_entries_accounted_once {R : Type} (env : Env R) (cmd : bugReportCmd)
    (h : cmd.all = false) :
    (cmd.run env).stderr =
        (cmd.appPods.filter (fun s => (env.NamespacedNameFrom s).toOption.isNone)).map
            (fun s => "Pod name " ++ s ++ " is not namespaced, skipping it") ++
          (cmd.appDeployments.filter (fun s => (env.NamespacedNameFrom s).toOption.isNone)).map
            (fun s => "Deployment name " ++ s ++ " is not namespaced, skipping it") ∧
      (cmd.run env).stderr.length =
        (cmd.appPods.filter (fun s => (env.NamespacedNameFrom s).toOption.isNone)).length +
          (cmd.appDeployments.filter
            (fun s => (env.NamespacedNameFrom s).toOption.isNone)).length ∧
      (cmd.run env).collectorCalls.map (fun cfg => (cfg.AppPods, cfg.AppDeployments)) =
        [(cmd.appPods.filterMap (fun s => (env.NamespacedNameFrom s).toOption),
          cmd.appDeployments.filterMap (fun s => (env.NamespacedNameFrom s).toOption))] ∧
      (cmd.run env).collectorCalls.map
          (fun cfg => cfg.AppPods.length + cfg.AppDeployments.length +
            (cmd.run env).stderr.length) =
        [cmd.appPods.length + cmd.appDeployments.length] ∧
      (cmd.run env).returned.isSome = true := by
  have e₁ := length_parsedRefs_add_malformed env cmd.appPods
  have e₂ := length_parsedRefs_add_malformed env cmd.appDeployments
  rw [run_of_resolve_ok env cmd _ (resolve_explicit env cmd h)]
  refine ⟨rfl, ?_, rfl, ?_, rfl⟩
  · simp [malformedEntries]
  · simp only [List.map_cons, List.map_nil, List.length_append, List.length_map,
      List.cons.injEq, and_true]
    omega

theorem explicit_entries_accounted_once_witness :
    sampleCmd.all = false ∧
      (sampleCmd.run sampleEnv).stderr = ["Pod name bookthief is not namespaced, skipping it"] ∧
      (sampleCmd.run sampleEnv).collectorCalls.map Config.targets =
        [(["bookbuyer", "bookstore"],
          [⟨"bookbuyer", "bookbuyer"⟩, ⟨"bookstore", "bookstore-v1"⟩],
          [⟨"bookthief", "bookthief-7bb7f9b98c-qplq4"⟩])] ∧
      (sampleCmd.run sampleEnv).returned.isSome = true := by
  have h := explicit_entries_accounted_once sampleEnv sampleCmd rfl
  exact ⟨rfl, h.1.trans (by decide), by decide, h.2.2.2.2⟩

/-- C3 as stated fails: with the same well-formed pod `a/b` listed twice, the
pod list handed to the collector holds the pair `(a, b)` twice. -/
theorem explicit_duplicate_kept_twice :
    duplicateCmd.all = false ∧
      (duplicateCmd.run sampleEnv).collectorCalls.map Config.AppPods =
        [[⟨"a", "b"⟩, ⟨"a", "b"⟩]] ∧
      ¬ ∀ cfg ∈ (duplicateCmd.run sampleEnv).collectorCalls, cfg.AppPods.Nodup := by
  refine ⟨rfl, by decide, ?_⟩
  intro hall
  have hnd := hall _ (List.mem_singleton_self _)
  revert hnd
  decide

/-- C3 amended: explicit mode does not deduplicate. Every `(namespace, name)`
pair occurs in the pod list handed to the collector as many times as there are
entries of `cmd.appPods` that parse to it, and in the deployment list as many
times as there are entries of `cmd.appDeployments` that parse to it. -/
theorem explicit_multiplicity_preserved {R : Type} (env : Env R) (cmd : bugReportCmd)
    (h : cmd.all = false) (r : NamespacedName) :
    (cmd.run env).collectorCalls.map
        (fun cfg => (cfg.AppPods.count r, cfg.AppDeployments.count r)) =
      [(cmd.appPods.countP (fun s => decide ((env.NamespacedNameFrom s).toOption = some r)),
        cmd.appDeployments.countP
          (fun s => decide ((env.NamespacedNameFrom s).toOption = some r)))] := by
  rw [run_of_resolve_ok env cmd _ (resolve_explicit env cmd h)]
  simp only [List.map_cons, List.map_nil, count_parsedRefs]

theorem explicit_multiplicity_preserved_witness :
    duplicateCmd.all = false ∧
      (duplicateCmd.run sampleEnv).collectorCalls.map
          (fun cfg => (cfg.AppPods.count ⟨"a", "b"⟩, cfg.AppDeployments.count ⟨"a", "b"⟩)) =
        [(2, 0)] :=
  ⟨rfl, (explicit_multiplicity_preserved sampleEnv duplicateCmd rfl ⟨"a", "b"⟩).trans
    (by decide)⟩

/-! ## The claims about all mode -/

/-- C4: in all mode (`all = true`) the explicit inputs are not consulted. Two
invocations on the same cluster client, whatever their namespaces, deployments
and pods inputs, write the same messages, make the same client calls and hand
the collector the same namespaces, deployments and pods; the deployment list
handed over is empty and every pod handed over was built from a pod returned
by the pod listing of a returned namespace. -/
theorem all_mode_ignores_explicit_inputs {R : Type} (env : Env R) (cmd₁ cmd₂ : bugReportCmd)
    (h₁ : cmd₁.all = true) (h₂ : cmd₂.all = true) (hk : cmd₁.kubeClient = cmd₂.kubeClient) :
    (cmd₁.run env).collectorCalls.map Config.targets =
        (cmd₂.run env).collectorCalls.map Config.targets ∧
      (cmd₁.run env).stderr = (cmd₂.run env).stderr ∧
      (cmd₁.run env).apiCalls = (cmd₂.run env).apiCalls ∧
      (cmd₁.run env).returned.isSome = (cmd₂.run env).returned.isSome ∧
      ∀ cfg ∈ (cmd₁.run env).collectorCalls,
        cfg.AppDeployments = [] ∧
          ∀ p ∈ cfg.AppPods, ∃ nss nsObj items pod,
            (cmd₁.kubeClient.NamespacesList env.OSMKubeResourceMonitorAnnotation).list = some nss ∧
              nsObj ∈ nss ∧ (cmd₁.kubeClient.PodsList nsObj.Name).list = some items ∧
              pod ∈ items ∧ p = pod.ref := by
  have hres := resolve_all_congr env cmd₁ cmd₂ h₁ h₂ hk
  cases hst : resolve env cmd₁ with
  | error st =>
    rw [run_of_resolve_error env cmd₁ st hst, run_of_resolve_error env cmd₂ st (hres ▸ hst)]
    simp
  | ok st =>
    obtain ⟨nss, hl, hp⟩ := resolve_all_ok_inv env cmd₁ h₁ st hst
    rw [run_of_resolve_ok env cmd₁ st hst, run_of_resolve_ok env cmd₂ st (hres ▸ hst)]
    refine ⟨rfl, rfl, rfl, rfl, ?_⟩
    intro cfg hcfg
    simp only [List.mem_singleton] at hcfg
    subst hcfg
    have hcl := resolve_all env cmd₁ h₁ nss hl hp
    rw [hst] at hcl
    have hst' := Except.ok.inj hcl
    subst hst'
    refine ⟨rfl, ?_⟩
    intro p hp'
    simp only [List.mem_flatMap] at hp'
    obtain ⟨nsObj, hns, hmem⟩ := hp'
    obtain ⟨items, hitems⟩ := Option.ne_none_iff_exists'.mp (hp nsObj hns)
    simp only [listedPods, hitems, Option.getD_some, List.mem_map] at hmem
    obtain ⟨pod, hpod, rfl⟩ := hmem
    exact ⟨nss, nsObj, items, pod, hl, hns, hitems, hpod, rfl⟩

theorem all_mode_ignores_explicit_inputs_witness :
    (allCmd meshCluster ["x"] ["x/d"] ["x/p", "broken"]).all = true ∧
      (allCmd meshCluster [] [] []).all = true ∧
      (allCmd meshCluster ["x"] ["x/d"] ["x/p", "broken"]).kubeClient =
        (allCmd meshCluster [] [] []).kubeClient ∧
      ((allCmd meshCluster ["x"] ["x/d"] ["x/p", "broken"]).run sampleEnv).collectorCalls.map
          Config.targets =
        ((allCmd meshCluster [] [] []).run sampleEnv).collectorCalls.map Config.targets ∧
      ((allCmd meshCluster [] [] []).run sampleEnv).collectorCalls.map Config.targets =
        [(["bookbuyer", "bookstore"], [],
          [⟨"bookbuyer", "bookbuyer-1"⟩, ⟨"bookbuyer", "bookbuyer-2"⟩,
            ⟨"bookstore", "bookstore-v1-1"⟩])] :=
  ⟨rfl, rfl, rfl,
    (all_mode_ignores_explicit_inputs sampleEnv (allCmd meshCluster ["x"] ["x/d"] ["x/p", "broken"])
      (allCmd meshCluster [] [] []) rfl rfl rfl).1,
    by decide⟩

/-- C5: in all mode, when the namespace listing succeeds with the namespaces
`nss` and the pod listing of each of them succeeds with the pods `pods name`,
the pod list handed to the collector is the concatenation, over `nss` in
order, of the `(pod.Namespace, pod.Name)` pairs of `pods name` in order. -/
theorem all_mode_pods_are_concatenation {R : Type} (env : Env R) (cmd : bugReportCmd)
    (nss : List Namespace) (pods : String → List Pod) (h : cmd.all = true)
    (hl : cmd.kubeClient.NamespacesList env.OSMKubeResourceMonitorAnnotation =
      { list := some nss, err := none })
    (hp : ∀ nsObj ∈ nss,
      cmd.kubeClient.PodsList nsObj.Name = { list := some (pods nsObj.Name), err := none }) :
    (cmd.run env).collectorCalls.map Config.AppPods =
      [nss.flatMap fun nsObj => (pods nsObj.Name).map Pod.ref] := by
  have hp' : ∀ nsObj ∈ nss, (cmd.kubeClient.PodsList nsObj.Name).list ≠ none := by
    intro nsObj hns
    rw [hp nsObj hns]
    simp
  rw [run_of_resolve_ok env cmd _ (resolve_all env cmd h nss (by rw [hl]) hp')]
  simp only [List.map_cons, List.map_nil, List.cons.injEq, and_true]
  apply List.flatMap_congr
  intro nsObj hns
  simp [listedPods, hp nsObj hns]

theorem all_mode_pods_are_concatenation_witness :
    (allCmd meshCluster [] [] ["x/p"]).all = true ∧
      meshCluster.NamespacesList sampleEnv.OSMKubeResourceMonitorAnnotation =
        { list := some [⟨"bookbuyer"⟩, ⟨"bookstore"⟩], err := none } ∧
      (∀ nsObj ∈ ([⟨"bookbuyer"⟩, ⟨"bookstore"⟩] : List Namespace),
        meshCluster.PodsList nsObj.Name = { list := some (meshPods nsObj.Name), err := none }) ∧
      ((allCmd meshCluster [] [] ["x/p"]).run sampleEnv).collectorCalls.map Config.AppPods =
        [([⟨"bookbuyer"⟩, ⟨"bookstore"⟩] : List Namespace).flatMap
          fun nsObj => (meshPods nsObj.Name).map Pod.ref] :=
  ⟨rfl, rfl, by decide,
    all_mode_pods_are_concatenation sampleEnv (allCmd meshCluster [] [] ["x/p"])
      [⟨"bookbuyer"⟩, ⟨"bookstore"⟩] meshPods rfl rfl (by decide)⟩

/-- C7: in all mode, when the namespace listing succeeds and returns no
namespace, `run` writes nothing to `cmd.stderr` and invokes the collector with
no namespaces, no deployments and no pods, whatever the explicit inputs. -/
theorem all_mode_no_namespaces {R : Type} (env : Env R) (cmd : bugReportCmd)
    (h : cmd.all = true)
    (hl : cmd.kubeClient.NamespacesList env.OSMKubeResourceMonitorAnnotation =
      { list := some [], err := none }) :
    (cmd.run env).stderr = [] ∧
      (cmd.run env).collectorCalls.map Config.targets = [([], [], [])] ∧
      (cmd.run env).returned.isSome = true := by
  rw [run_of_resolve_ok env cmd _
    (resolve_all env cmd h [] (by rw [hl]) (by simp))]
  simp [hl, podsWarnings, Config.targets]

theorem all_mode_no_namespaces_witness :
    (allCmd emptyCluster ["ns"] ["ns/d"] ["ns/p", "bad"]).all = true ∧
      emptyCluster.NamespacesList sampleEnv.OSMKubeResourceMonitorAnnotation =
        { list := some [], err := none } ∧
      ((allCmd emptyCluster ["ns"] ["ns/d"] ["ns/p", "bad"]).run sampleEnv).stderr = [] ∧
      ((allCmd emptyCluster ["ns"] ["ns/d"] ["ns/p", "bad"]).run sampleEnv).collectorCalls.map
          Config.targets = [([], [], [])] ∧
      ((allCmd emptyCluster ["ns"] ["ns/d"] ["ns/p", "bad"]).run sampleEnv).returned.isSome
        = true :=
  ⟨rfl, rfl,
    all_mode_no_namespaces sampleEnv (allCmd emptyCluster ["ns"] ["ns/d"] ["ns/p", "bad"])
      rfl rfl⟩

/-! ## What holds when no listing returns nil -/

/-- In all mode `run` returns nothing exactly when the namespace listing or the
pod listing of a returned namespace gave a nil list. -/
theorem run_stops_iff_nil_list {R : Type} (env : Env R) (cmd : bugReportCmd)
    (h : cmd.all = true) :
    (cmd.run env).returned = none ↔
      ¬ ∃ nss,
        (cmd.kubeClient.NamespacesList env.OSMKubeResourceMonitorAnnotation).list = some nss ∧
          ∀ nsObj ∈ nss, (cmd.kubeClient.PodsList nsObj.Name).list ≠ none := by
  constructor
  · rintro hnone ⟨nss, hl, hp⟩
    rw [run_of_resolve_ok env cmd _ (resolve_all env cmd h nss hl hp)] at hnone
    simp at hnone
  · intro hno
    cases hst : resolve env cmd with
    | error st => rw [run_of_resolve_error env cmd st hst]
    | ok st => exact absurd (resolve_all_ok_inv env cmd h st hst) hno

/-- Whenever `run` returns, it has invoked the collector once, with the
configured control-plane namespace and the output path of the command, and it
returns the collector's result. -/
theorem run_returns_collector_result {R : Type} (env : Env R) (cmd : bugReportCmd) (res : R)
    (hret : (cmd.run env).returned = some res) :
    ∃ cfg, (cmd.run env).collectorCalls = [cfg] ∧
      cfg.ControlPlaneNamepace = env.settingsNamespace ∧ cfg.OutFile = cmd.outFile ∧
      cfg.Stdout = cmd.stdout ∧ cfg.Stderr = cmd.stderr ∧ res = env.Run cfg := by
  cases hst : resolve env cmd with
  | error st =>
    rw [run_of_resolve_error env cmd st hst] at hret
    simp at hret
  | ok st =>
    rw [run_of_resolve_ok env cmd st hst] at hret ⊢
    simp only [Option.some.injEq] at hret
    exact ⟨_, rfl, rfl, rfl, rfl, rfl, hret.symm⟩

/-- In explicit mode `run` always returns, hands the namespaces input through
unchanged and makes no client call. -/
theorem explicit_mode_namespaces_passed_through {R : Type} (env : Env R) (cmd : bugReportCmd)
    (h : cmd.all = false) :
    (cmd.run env).collectorCalls.map Config.AppNamespaces = [cmd.appNamespaces] ∧
      (cmd.run env).apiCalls = [] ∧ (cmd.run env).returned.isSome = true := by
  rw [run_of_resolve_ok env cmd _ (resolve_explicit env cmd h)]
  exact ⟨rfl, rfl, rfl⟩

/-- In all mode, when no listing returns nil, the namespaces handed to the
collector are the names of the returned namespaces in order, failed pod
listings included, and a namespace whose failed pod listing returned an empty
list adds one warning and no pod. -/
theorem all_mode_namespaces_when_lists_non_nil {R : Type} (env : Env R) (cmd : bugReportCmd)
    (h : cmd.all = true) (nss : List Namespace)
    (hl : (cmd.kubeClient.NamespacesList env.OSMKubeResourceMonitorAnnotation).list = some nss)
    (hp : ∀ nsObj ∈ nss, (cmd.kubeClient.PodsList nsObj.Name).list ≠ none) :
    (cmd.run env).collectorCalls.map Config.targets =
        [(nss.map Namespace.Name, [],
          nss.flatMap fun nsObj => listedPods cmd.kubeClient nsObj.Name)] ∧
      (cmd.run env).stderr =
        (if (cmd.kubeClient.NamespacesList env.OSMKubeResourceMonitorAnnotation).err.isSome
          then [namespacesWarning] else []) ++ podsWarnings cmd.kubeClient nss := by
  rw [run_of_resolve_ok env cmd _ (resolve_all env cmd h nss hl hp)]
  exact ⟨rfl, rfl⟩

/-! ## The typed client -/

theorem ListResult.list_ne_none_of_typed {α : Type} (r : ListResult α) (h : r.typed = true) :
    r.list ≠ none := by
  intro hl
  simp [ListResult.typed, hl] at h

/-- A failed call of the typed client carries the empty list. -/
theorem ListResult.list_of_typed_of_err {α : Type} (r : ListResult α) (h : r.typed = true)
    (he : r.err ≠ none) : r.list = some [] := by
  cases hl : r.list with
  | none => simp [ListResult.typed, hl] at h
  | some items =>
    cases hr : r.err with
    | none => exact absurd hr he
    | some e =>
      simp [ListResult.typed, hl, hr] at h
      rw [h]

theorem KubeClient.listsNonNil_of_typed (kubeClient : KubeClient) (h : kubeClient.typed) :
    kubeClient.listsNonNil := by
  refine ⟨fun sel => ?_, fun n => ?_⟩
  · exact Option.isSome_iff_ne_none.mpr (ListResult.list_ne_none_of_typed _ (h.1 sel))
  · exact Option.isSome_iff_ne_none.mpr (ListResult.list_ne_none_of_typed _ (h.2 n))

/-- With a client whose lists are never nil, the `if`/`else` of `run` finishes. -/
theorem resolve_ok_of_listsNonNil {R : Type} (env : Env R) (cmd : bugReportCmd)
    (ht : cmd.all = true → cmd.kubeClient.listsNonNil) :
    resolve env cmd = .ok
      { appNamespaces :=
          if cmd.all then
            ((cmd.kubeClient.NamespacesList env.OSMKubeResourceMonitorAnnotation).list.getD []).map
              Namespace.Name
          else cmd.appNamespaces
        appPods :=
          if cmd.all then
            ((cmd.kubeClient.NamespacesList env.OSMKubeResourceMonitorAnnotation).list.getD
              []).flatMap fun nsObj => listedPods cmd.kubeClient nsObj.Name
          else parsedRefs env cmd.appPods
        appDeployments := if cmd.all then [] else parsedRefs env cmd.appDeployments
        stderr :=
          if cmd.all then
            (if (cmd.kubeClient.NamespacesList env.OSMKubeResourceMonitorAnnotation).err.isSome
              then [namespacesWarning] else []) ++
              podsWarnings cmd.kubeClient
                ((cmd.kubeClient.NamespacesList env.OSMKubeResourceMonitorAnnotation).list.getD [])
          else
            (malformedEntries env cmd.appPods).map podWarning ++
              (malformedEntries env cmd.appDeployments).map deploymentWarning
        apiCalls :=
          if cmd.all then
            ApiCall.listNamespaces env.OSMKubeResourceMonitorAnnotation ::
              ((cmd.kubeClient.NamespacesList env.OSMKubeResourceMonitorAnnotation).list.getD
                []).map fun nsObj => ApiCall.listPods nsObj.Name
          else [] } := by
  cases hall : cmd.all with
  | false => simpa using resolve_explicit env cmd hall
  | true =>
    obtain ⟨hns, hpods⟩ := ht hall
    obtain ⟨nss, hl⟩ := Option.isSome_iff_exists.mp (hns env.OSMKubeResourceMonitorAnnotation)
    have hp : ∀ nsObj ∈ nss, (cmd.kubeClient.PodsList nsObj.Name).list ≠ none :=
      fun nsObj _ => Option.isSome_iff_ne_none.mp (hpods nsObj.Name)
    simpa [hl] using resolve_all env cmd hall nss hl hp

theorem podsWarnings_append (kubeClient : KubeClient) (xs ys : List Namespace) :
    podsWarnings kubeClient (xs ++ ys) =
      podsWarnings kubeClient xs ++ podsWarnings kubeClient ys := by
  simp [podsWarnings]

/-! ## The claims about listing failures -/

/-- C6: in all mode, with the typed client, let the namespace listing return
`before ++ failed :: after` and let the pod listing of `failed` return an
error. Then the pod list handed to the collector is the pods listed for the
namespaces of `before`, in order, followed by the pods listed for the
namespaces of `after`: `failed` adds no pod and every other namespace, earlier
or later, adds exactly its own listed pods, which do not depend on the failed
listing. The messages on `cmd.stderr` are those of `before`, then the one text
`Unable to get pods from namespace <failed>`, then those of `after`, where a
namespace has a message only if its own pod listing returned an error; and
`run` reaches the collector and returns. -/
theorem all_mode_listing_failure_isolated {R : Type} (env : Env R) (cmd : bugReportCmd)
    (before after : List Namespace) (failed : Namespace)
    (h : cmd.all = true) (ht : cmd.kubeClient.typed)
    (hl : (cmd.kubeClient.NamespacesList env.OSMKubeResourceMonitorAnnotation).list =
      some (before ++ failed :: after))
    (hf : (cmd.kubeClient.PodsList failed.Name).err ≠ none) :
    (cmd.run env).collectorCalls.map Config.AppPods =
        [(before.flatMap fun nsObj =>
            ((cmd.kubeClient.PodsList nsObj.Name).list.getD []).map Pod.ref) ++
          after.flatMap fun nsObj =>
            ((cmd.kubeClient.PodsList nsObj.Name).list.getD []).map Pod.ref] ∧
      (cmd.run env).stderr =
        (before.filter fun nsObj => (cmd.kubeClient.PodsList nsObj.Name).err.isSome).map
            (fun nsObj => "Unable to get pods from namespace " ++ nsObj.Name) ++
          ["Unable to get pods from namespace " ++ failed.Name] ++
          (after.filter fun nsObj => (cmd.kubeClient.PodsList nsObj.Name).err.isSome).map
            (fun nsObj => "Unable to get pods from namespace " ++ nsObj.Name) ∧
      (cmd.run env).returned.isSome = true := by
  have hp : ∀ nsObj ∈ before ++ failed :: after,
      (cmd.kubeClient.PodsList nsObj.Name).list ≠ none :=
    fun nsObj _ => ListResult.list_ne_none_of_typed _ (ht.2 nsObj.Name)
  have hnoerr :
      (cmd.kubeClient.NamespacesList env.OSMKubeResourceMonitorAnnotation).err = none := by
    by_contra he
    have := ListResult.list_of_typed_of_err _ (ht.1 env.OSMKubeResourceMonitorAnnotation) he
    rw [hl] at this
    simp at this
  have hempty : listedPods cmd.kubeClient failed.Name = [] := by
    simp [listedPods, ListResult.list_of_typed_of_err _ (ht.2 failed.Name) hf]
  have hsome : (cmd.kubeClient.PodsList failed.Name).err.isSome = true :=
    Option.isSome_iff_ne_none.mpr hf
  rw [run_of_resolve_ok env cmd _ (resolve_all env cmd h _ hl hp)]
  refine ⟨?_, ?_, rfl⟩
  · have hcons : failed :: after = [failed] ++ after := rfl
    simp only [List.map_cons, List.map_nil, Config.AppPods, hcons, List.flatMap_append,
      List.flatMap_cons, List.flatMap_nil, hempty, List.append_nil, List.nil_append]
    rfl
  · have hcons : failed :: after = [failed] ++ after := rfl
    simp only [hnoerr, hcons, podsWarnings_append]
    simp [podsWarnings, podsWarning, hsome, List.filter_cons]

theorem all_mode_listing_failure_isolated_witness :
    (allCmd oneFailureCluster [] [] []).all = true ∧
      oneFailureCluster.typed ∧
      (oneFailureCluster.NamespacesList sampleEnv.OSMKubeResourceMonitorAnnotation).list =
        some ([⟨"a"⟩] ++ ⟨"b"⟩ :: [⟨"c"⟩]) ∧
      (oneFailureCluster.PodsList "b").err ≠ none ∧
      ((allCmd oneFailureCluster [] [] []).run sampleEnv).collectorCalls.map Config.AppPods =
        [[⟨"a", "pod-0"⟩, ⟨"c", "pod-0"⟩]] ∧
      ((allCmd oneFailureCluster [] [] []).run sampleEnv).stderr =
        ["Unable to get pods from namespace b"] ∧
      ((allCmd oneFailureCluster [] [] []).run sampleEnv).returned.isSome = true := by
  have htyped : oneFailureCluster.typed := by
    refine ⟨fun _ => rfl, fun n => ?_⟩
    unfold oneFailureCluster
    by_cases hn : n = "b" <;> simp [hn, ListResult.typed]
  have h := all_mode_listing_failure_isolated sampleEnv (allCmd oneFailureCluster [] [] [])
    [⟨"a"⟩] [⟨"c"⟩] ⟨"b"⟩ rfl htyped rfl (by decide)
  exact ⟨rfl, htyped, rfl, by decide, h.1.trans (by decide), h.2.1.trans (by decide), h.2.2⟩

/-- C8: for every command, in explicit mode with any client and in all mode
with a client whose lists are never nil (the typed client), whatever entries
are malformed and whatever listings fail, `run` invokes the collector exactly
once, on a configuration whose control-plane namespace is
`settings.Namespace()` and whose output path is `cmd.outFile`, and what `run`
returns is the collector's result on that configuration. -/
theorem run_invokes_collector_once {R : Type} (env : Env R) (cmd : bugReportCmd)
    (ht : cmd.all = true → cmd.kubeClient.listsNonNil) :
    (cmd.run env).collectorCalls.map (fun cfg => (cfg.ControlPlaneNamepace, cfg.OutFile)) =
        [(env.settingsNamespace, cmd.outFile)] ∧
      (cmd.run env).collectorCalls.map (fun cfg => some (env.Run cfg)) =
        [(cmd.run env).returned] := by
  rw [run_of_resolve_ok env cmd _ (resolve_ok_of_listsNonNil env cmd ht)]
  exact ⟨rfl, rfl⟩

theorem run_invokes_collector_once_witness :
    ((allCmd unreachableCluster [] ["d"] ["p"]).all = true →
        (allCmd unreachableCluster [] ["d"] ["p"]).kubeClient.listsNonNil) ∧
      ((allCmd unreachableCluster [] ["d"] ["p"]).run sampleEnv).collectorCalls.map
          (fun cfg => (cfg.ControlPlaneNamepace, cfg.OutFile, cfg.targets)) =
        [("osm-system", "report.zip", [], [], [])] ∧
      ((allCmd unreachableCluster [] ["d"] ["p"]).run sampleEnv).stderr =
        ["Unable to list mesh namespaces"] ∧
      ((allCmd unreachableCluster [] ["d"] ["p"]).run sampleEnv).returned = some 0 := by
  have ht : (allCmd unreachableCluster [] ["d"] ["p"]).all = true →
      (allCmd unreachableCluster [] ["d"] ["p"]).kubeClient.listsNonNil :=
    fun _ => ⟨fun _ => rfl, fun _ => rfl⟩
  have h := run_invokes_collector_once sampleEnv (allCmd unreachableCluster [] ["d"] ["p"]) ht
  refine ⟨ht, by decide, by decide, ?_⟩
  have h2 := h.2
  simp only [List.map_cons, List.map_nil, List.cons.injEq, and_true] at h2
  revert h2
  decide

/-- C10: the namespaces list handed to the collector is fixed by the mode. In
explicit mode it is `cmd.appNamespaces` unchanged and no client call is made.
In all mode, with a client whose lists are never nil (the typed client), it is
the names of the namespaces the namespace listing returned, in order and one
per returned namespace, whether or not the pod listing of a namespace returned
an error. -/
theorem namespaces_determined_by_mode {R : Type} (env : Env R) (cmd : bugReportCmd)
    (ht : cmd.all = true → cmd.kubeClient.listsNonNil) :
    (cmd.run env).collectorCalls.map Config.AppNamespaces =
        [if cmd.all then
            ((cmd.kubeClient.NamespacesList env.OSMKubeResourceMonitorAnnotation).list.getD []).map
              Namespace.Name
          else cmd.appNamespaces] ∧
      (cmd.all = true ∨ (cmd.run env).apiCalls = []) := by
  rw [run_of_resolve_ok env cmd _ (resolve_ok_of_listsNonNil env cmd ht)]
  refine ⟨rfl, ?_⟩
  cases hall : cmd.all with
  | true => exact Or.inl rfl
  | false => exact Or.inr (by simp)

theorem namespaces_determined_by_mode_witness :
    ((allCmd soleFailureCluster ["x"] [] []).all = true →
        (allCmd soleFailureCluster ["x"] [] []).kubeClient.listsNonNil) ∧
      (soleFailureCluster.PodsList "a").err ≠ none ∧
      ((allCmd soleFailureCluster ["x"] [] []).run sampleEnv).collectorCalls.map
          Config.AppNamespaces = [["a"]] ∧
      (sampleCmd.run sampleEnv).collectorCalls.map Config.AppNamespaces =
        [["bookbuyer", "bookstore"]] ∧
      (sampleCmd.run sampleEnv).apiCalls = [] := by
  have ht : (allCmd soleFailureCluster ["x"] [] []).all = true →
      (allCmd soleFailureCluster ["x"] [] []).kubeClient.listsNonNil :=
    fun _ => ⟨fun _ => rfl, fun _ => rfl⟩
  have h := namespaces_determined_by_mode sampleEnv (allCmd soleFailureCluster ["x"] [] []) ht
  have h' := namespaces_determined_by_mode sampleEnv sampleCmd (fun hall => absurd hall (by decide))
  refine ⟨ht, by decide, h.1.trans (by decide), h'.1.trans (by decide), ?_⟩
  rcases h'.2 with hall | hcalls
  · exact absurd hall (by decide)
  · exact hcalls

/-! ## The identifier parser of section 4.1 -/

theorem segments_ne_nil (sep : Char) (cs : List Char) : segments sep cs ≠ [] := by
  cases cs with
  | nil => simp [segments]
  | cons c cs =>
    unfold segments
    split
    · simp
    · split <;> simp

/-- A list without separator is its own single segment. -/
theorem segments_of_not_mem (sep : Char) (cs : List Char) (h : sep ∉ cs) :
    segments sep cs = [cs] := by
  induction cs with
  | nil => rfl
  | cons c cs ih =>
    have hc : c ≠ sep := fun e => h (e ▸ List.mem_cons_self _ _)
    have hcs : sep ∉ cs := fun m => h (List.mem_cons_of_mem _ m)
    simp [segments, hc, ih hcs]

/-- The first separator ends the first segment. -/
theorem segments_append_sep (sep : Char) (a b : List Char) (h : sep ∉ a) :
    segments sep (a ++ sep :: b) = a :: segments sep b := by
  induction a with
  | nil => simp [segments]
  | cons c a ih =>
    have hc : c ≠ sep := fun e => h (e ▸ List.mem_cons_self _ _)
    have ha : sep ∉ a := fun m => h (List.mem_cons_of_mem _ m)
    simp [segments, hc, ih ha]

/-- A single segment is the whole list, which then holds no separator. -/
theorem eq_of_segments_singleton (sep : Char) (cs b : List Char)
    (h : segments sep cs = [b]) : cs = b ∧ sep ∉ b := by
  induction cs generalizing b with
  | nil =>
    simp only [segments, List.cons.injEq, and_true] at h
    subst h
    simp
  | cons c cs ih =>
    unfold segments at h
    split at h
    · simp only [List.cons.injEq] at h
      exact absurd h.2 (segments_ne_nil sep cs)
    · rename_i hc
      split at h
      · rename_i hnil
        exact absurd hnil (segments_ne_nil sep cs)
      · rename_i seg rest hseg
        simp only [List.cons.injEq] at h
        obtain ⟨rfl, rfl⟩ := h
        obtain ⟨rfl, hmem⟩ := ih seg hseg
        refine ⟨rfl, ?_⟩
        intro m
        rcases List.mem_cons.mp m with e | m
        · exact hc e.symm
        · exact hmem m

/-- Two segments are the parts before and after the only separator. -/
theorem eq_of_segments_pair (sep : Char) (cs a b : List Char)
    (h : segments sep cs = [a, b]) : cs = a ++ sep :: b ∧ sep ∉ a ∧ sep ∉ b := by
  induction cs generalizing a with
  | nil => simp [segments] at h
  | cons c cs ih =>
    unfold segments at h
    split at h
    · rename_i hc
      simp only [List.cons.injEq] at h
      obtain ⟨rfl, hrest⟩ := h
      obtain ⟨rfl, hmem⟩ := eq_of_segments_singleton sep cs b hrest
      simp [hc, hmem]
    · rename_i hc
      split at h
      · rename_i hnil
        exact absurd hnil (segments_ne_nil sep cs)
      · rename_i seg rest hseg
        simp only [List.cons.injEq] at h
        obtain ⟨rfl, rfl⟩ := h
        obtain ⟨rfl, hseg', hb⟩ := ih seg hseg
        refine ⟨rfl, ?_, hb⟩
        intro m
        rcases List.mem_cons.mp m with e | m
        · exact hc e.symm
        · exact hseg' m

/-- The parser accepts exactly the strings with two segments, both non-empty. -/
theorem NamespacedNameFrom_eq_ok_iff (s : String) (r : NamespacedName) :
    NamespacedNameFrom s = .ok r ↔
      segments '/' s.data = [r.Namespace.data, r.Name.data] ∧
        r.Namespace.data ≠ [] ∧ r.Name.data ≠ [] := by
  unfold NamespacedNameFrom
  constructor
  · intro h
    split at h
    · rename_i ns name hseg
      split at h
      · rename_i hne
        simp only [Except.ok.injEq] at h
        subst h
        exact ⟨hseg, hne.1, hne.2⟩
      · simp at h
    · simp at h
  · rintro ⟨hseg, hns, hname⟩
    rw [hseg]
    simp [hns, hname]

/-- Every rejection is a `MalformedIdentifier`. -/
theorem NamespacedNameFrom_error (s : String) (e : ParseError)
    (_h : NamespacedNameFrom s = .error e) : e = ParseError.MalformedIdentifier := by
  cases e
  rfl

/-- C9: the parser of section 4.1 returns `r` exactly on the string
`r.Namespace ++ "/" ++ r.Name` with both segments non-empty and free of `/`,
so formatting a result gives the input back; it succeeds exactly on the
strings that hold one `/` with a non-empty part before it and a non-empty part
after it; and whenever it does not succeed it fails with
`MalformedIdentifier`. -/
theorem NamespacedNameFrom_spec (s : String) :
    (∀ r : NamespacedName, NamespacedNameFrom s = .ok r ↔
        (r.format = s ∧ r.Namespace ≠ "" ∧ r.Name ≠ "" ∧
          '/' ∉ r.Namespace.data ∧ '/' ∉ r.Name.data)) ∧
      ((∃ r, NamespacedNameFrom s = .ok r) ↔
        (s.data.count '/' = 1 ∧
          ∃ ns name : List Char, ns ≠ [] ∧ name ≠ [] ∧ s.data = ns ++ '/' :: name)) ∧
      ((¬ ∃ r, NamespacedNameFrom s = .ok r) ↔
        NamespacedNameFrom s = .error ParseError.MalformedIdentifier) := by
  have hfmt : ∀ r : NamespacedName, r.format.data = r.Namespace.data ++ '/' :: r.Name.data := by
    intro r
    simp [NamespacedName.format]
  have hfirst : ∀ r : NamespacedName, NamespacedNameFrom s = .ok r ↔
      (r.format = s ∧ r.Namespace ≠ "" ∧ r.Name ≠ "" ∧
        '/' ∉ r.Namespace.data ∧ '/' ∉ r.Name.data) := by
    intro r
    have hne : ∀ t : String, t ≠ "" ↔ t.data ≠ [] := by
      intro t
      rw [Ne, String.ext_iff]
    rw [NamespacedNameFrom_eq_ok_iff, hne, hne, String.ext_iff, hfmt]
    constructor
    · rintro ⟨hseg, hns, hname⟩
      obtain ⟨hs, h₁, h₂⟩ := eq_of_segments_pair _ _ _ _ hseg
      exact ⟨hs.symm, hns, hname, h₁, h₂⟩
    · rintro ⟨hs, hns, hname, h₁, h₂⟩
      refine ⟨?_, hns, hname⟩
      rw [← hs, segments_append_sep _ _ _ h₁, segments_of_not_mem _ _ h₂]
  refine ⟨hfirst, ?_, ?_⟩
  · constructor
    · rintro ⟨r, hr⟩
      obtain ⟨hs, hns, hname, h₁, h₂⟩ := (hfirst r).mp hr
      have hne : ∀ t : String, t ≠ "" → t.data ≠ [] := by
        intro t ht hd
        exact ht (String.ext hd)
      have hdata : s.data = r.Namespace.data ++ '/' :: r.Name.data := by
        rw [← hs, hfmt]
      refine ⟨?_, r.Namespace.data, r.Name.data, hne _ hns, hne _ hname, hdata⟩
      rw [hdata, List.count_append, List.count_cons_self, List.count_eq_zero_of_not_mem h₁,
        List.count_eq_zero_of_not_mem h₂]
    · rintro ⟨hcount, ns, name, hns, hname, hdata⟩
      rw [hdata, List.count_append, List.count_cons_self] at hcount
      have h₁ : '/' ∉ ns := by
        intro m
        have := List.count_pos_iff.mpr m
        omega
      have h₂ : '/' ∉ name := by
        intro m
        have := List.count_pos_iff.mpr m
        omega
      refine ⟨⟨String.mk ns, String.mk name⟩, (NamespacedNameFrom_eq_ok_iff _ _).mpr ?_⟩
      refine ⟨?_, hns, hname⟩
      rw [hdata, segments_append_sep _ _ _ h₁, segments_of_not_mem _ _ h₂]
  · constructor
    · intro hno
      cases hres : NamespacedNameFrom s with
      | error e => rw [NamespacedNameFrom_error s e hres]
      | ok r => exact absurd ⟨r, hres⟩ hno
    · rintro herr ⟨r, hr⟩
      rw [hr] at herr
      simp at herr

end BugReport
